import Mathlib

/-!
# Verification of the OpenClaw cost-optimization core

Shallow embedding of the usage-accounting / cost-optimization layer of the
Openclawd repository and proofs about its specification claims:

* `ResponseCache` (`src/unnamed/part_001`): content-addressed response cache
  with memory/disk backends, TTL expiry and size-bounded eviction.
* `UsageTracker` (`src/src/config/types.obsidian.ts`): usage-record
  aggregation into period buckets and budget checking.
* `BudgetEnforcer` (`src/src/usage/budget-enforcer.ts`).
* `CostOptimizedModelSelector` (`src/unnamed/part_002`): capability filtering,
  weighted scoring and budget-constrained model selection.

JS `number` values are modelled as exact rationals (`ℚ`); JS
`number | undefined` as `Option ℚ` with explicit truthiness helpers (`x || y`
falls through on `0` and `undefined`, `if (x)` is false on `0` and
`undefined`).  JS `Map` is modelled as an insertion-ordered association list
(`Map.set` overwrites in place, `Map.delete` removes, iteration follows
insertion order).  Fallible operations return `Except`.
-/

namespace Openclawd

/-- JS `a || b` for `a : number | undefined`: `b` when `a` is `undefined` or `0`. -/
def jsOr (a : Option ℚ) (b : ℚ) : ℚ :=
  match a with
  | none => b
  | some x => if x = 0 then b else x

/-- JS `a || b` where both sides are `number | undefined`. -/
def jsOrOpt (a b : Option ℚ) : Option ℚ :=
  match a with
  | none => b
  | some x => if x = 0 then b else some x

/-- JS truthiness of a `number | undefined` value. -/
def jsTruthy (a : Option ℚ) : Bool :=
  match a with
  | none => false
  | some x => decide (x ≠ 0)

/-- JS `Map.get` / first matching association-list entry. -/
def lookupA {β : Type} (l : List (String × β)) (k : String) : Option β :=
  match l with
  | [] => none
  | (k', v) :: t => if k' = k then some v else lookupA t k

/-- JS `Map.set`: overwrite in place when the key is present (keeping its
insertion position), otherwise append at the end. -/
def setA {β : Type} (l : List (String × β)) (k : String) (v : β) : List (String × β) :=
  match l with
  | [] => [(k, v)]
  | (k', v') :: t => if k' = k then (k', v) :: t else (k', v') :: setA t k v

/-- JS `Map.delete`. -/
def eraseA {β : Type} (l : List (String × β)) (k : String) : List (String × β) :=
  match l with
  | [] => []
  | (k', v') :: t => if k' = k then t else (k', v') :: eraseA t k

/-- Ensure-present-then-update: ensure the key is present with default `d`, then update its value with
`f`" — the `if (!map[k]) map[k] = d; f(map[k])` idiom, in one pass. -/
def updA {β : Type} (l : List (String × β)) (k : String) (d : β) (f : β → β) :
    List (String × β) :=
  match l with
  | [] => [(k, f d)]
  | (k', v) :: t => if k' = k then (k', f v) :: t else (k', v) :: updA t k d f

/-! ## ResponseCache (`src/unnamed/part_001`) -/

/-- Token usage payload stored alongside a cached response
(`NormalizedUsage`, carried opaquely by the cache). -/
structure NormalizedUsage where
  input : ℚ
  output : ℚ
deriving DecidableEq

/-- Model of `CachedResponse` (part_001 lines 6–13).  `timestamp` is epoch
milliseconds (`new Date()` / `Date.now()`), `ttl` is in seconds. -/
structure CachedResponse where
  response : String
  usage : NormalizedUsage
  cost : ℚ
  timestamp : ℚ
  ttl : ℚ
  hitCount : Nat
deriving DecidableEq

/-- Model of `CacheConfig.storage.type`. -/
inductive StorageType
  | memory
  | disk
deriving DecidableEq

/-- Model of `CacheConfig` (part_001 lines 15–31).  `hashFn` is the digest function
selected by `hashing.algorithm`: the semantics of node:crypto
`createHash(algorithm).update(s).digest("hex")`, external to the repository,
so the model is parametric in it. -/
structure CacheConfig where
  enabled : Bool
  storageType : StorageType
  maxSize : Nat
  ttlDefault : ℚ
  ttlPerModel : List (String × ℚ)
  includeTemperature : Bool
  includeMaxTokens : Bool
  hashFn : String → String

/-- One disk-backend cache file `<key>.json`: its cache key, its modification
time (epoch ms) and its parsed content.  Files are written only by
`setDiskCache` (`JSON.stringify` of a `CachedResponse`), so every file
parses back to its content. -/
structure DiskFile where
  key : String
  mtime : ℚ
  content : CachedResponse
deriving DecidableEq

/-- The cache's mutable state: the in-memory map, the disk cache directory's
files, and whether the storage directory exists (the constructor creates it
with `mkdirSync` for the disk backend). -/
structure CacheState where
  memoryCache : List (String × CachedResponse)
  diskFiles : List DiskFile
  storageDirExists : Bool
deriving DecidableEq

namespace ResponseCache

/-- Model of `generateCacheKey` (part_001 lines 143–155): append the optional
`|temp:` / `|max:` suffixes per config flags, then digest.  (The textual
rendering of a JS number inside the template literal is modelled with
`toString`; no theorem below exercises a `some` temperature/maxTokens.) -/
def generateCacheKey (cfg : CacheConfig) (prompt : String)
    (temperature maxTokens : Option ℚ) : String :=
  let keyString := prompt
  let keyString :=
    match temperature with
    | some t => if cfg.includeTemperature then keyString ++ "|temp:" ++ toString t else keyString
    | none => keyString
  let keyString :=
    match maxTokens with
    | some m => if cfg.includeMaxTokens then keyString ++ "|max:" ++ toString m else keyString
    | none => keyString
  cfg.hashFn keyString

/-- Backend read (memory map lookup, or `getDiskCache`: read and parse
`<key>.json`). -/
def storeLookup (cfg : CacheConfig) (st : CacheState) (key : String) :
    Option CachedResponse :=
  match cfg.storageType with
  | .memory => lookupA st.memoryCache key
  | .disk => (st.diskFiles.find? (fun f => f.key == key)).map (·.content)

/-- Model of `delete` (part_001 lines 228–237): remove the map entry, or unlink the
file `<key>.json`. -/
def deleteKey (cfg : CacheConfig) (st : CacheState) (key : String) : CacheState :=
  match cfg.storageType with
  | .memory => { st with memoryCache := eraseA st.memoryCache key }
  | .disk => { st with diskFiles := st.diskFiles.filter (fun f => !(f.key == key)) }

/-- Model of `setDiskCache` (part_001 lines 223–226): `writeFileSync` of
`<key>.json`, overwriting in place (directory entry keeps its position, the
modification time becomes `now`), creating the file otherwise. -/
def writeFile (l : List DiskFile) (now : ℚ) (k : String) (r : CachedResponse) :
    List DiskFile :=
  match l with
  | [] => [⟨k, now, r⟩]
  | f :: t => if f.key == k then ⟨k, now, r⟩ :: t else f :: writeFile t now k r

/-- State update of `setDiskCache`. -/
def setDiskCache (st : CacheState) (now : ℚ) (key : String) (resp : CachedResponse) :
    CacheState :=
  { st with diskFiles := writeFile st.diskFiles now key resp }

/-- Model of `get` (part_001 lines 70–99): `null` when disabled or absent; expired
entries (`now - timestamp > ttl * 1000`) are deleted and reported as a miss;
otherwise the hit count is incremented, the updated entry is written back to
the backend, and the updated entry is returned. -/
def get (cfg : CacheConfig) (st : CacheState) (now : ℚ) (cacheKey : String) :
    Option CachedResponse × CacheState :=
  if !cfg.enabled then (none, st)
  else
    match storeLookup cfg st cacheKey with
    | none => (none, st)
    | some cached =>
      if now - cached.timestamp > cached.ttl * 1000 then
        (none, deleteKey cfg st cacheKey)
      else
        let cached' := { cached with hitCount := cached.hitCount + 1 }
        match cfg.storageType with
        | .memory => (some cached', { st with memoryCache := setA st.memoryCache cacheKey cached' })
        | .disk => (some cached', setDiskCache st now cacheKey cached')

/-- Parameters of `set` (part_001 lines 101–109). -/
structure SetParams where
  key : String
  response : String
  usage : NormalizedUsage
  cost : ℚ
  ttl : Option ℚ
  temperature : Option ℚ
  maxTokens : Option ℚ

/-- The `CachedResponse` materialized by `set` (part_001 lines 120–129):
`ttl = params.ttl || config.ttl.default`, `hitCount = 0`, timestamp now. -/
def buildEntry (cfg : CacheConfig) (now : ℚ) (p : SetParams) : CachedResponse :=
  { response := p.response
    usage := p.usage
    cost := p.cost
    timestamp := now
    ttl := jsOr p.ttl cfg.ttlDefault
    hitCount := 0 }

/-- Model of `evictOldest` (part_001 lines 239–248), memory branch: delete the
first-inserted key (`keys().next().value`); no-op on an empty map. -/
def evictOldest (st : CacheState) : CacheState :=
  { st with memoryCache := st.memoryCache.drop 1 }

/-- Sort key used by `enforceDiskCacheLimit`: modification time ascending. -/
def mtimeLe (a b : DiskFile) : Prop := a.mtime ≤ b.mtime

instance : DecidableRel mtimeLe := fun a b => inferInstanceAs (Decidable (a.mtime ≤ b.mtime))

instance : IsTotal DiskFile mtimeLe := ⟨fun a b => le_total a.mtime b.mtime⟩

instance : IsTrans DiskFile mtimeLe := ⟨fun _ _ _ h h' => le_trans h h'⟩

/-- Model of `enforceDiskCacheLimit` (part_001 lines 250–270): when over capacity,
sort the files by modification time ascending (a stable sort, like JS
`toSorted`) and unlink the oldest `count - maxSize` of them. -/
def enforceDiskCacheLimit (cfg : CacheConfig) (st : CacheState) : CacheState :=
  let files := st.diskFiles
  if files.length ≤ cfg.maxSize then st
  else
    let sortedFiles := List.insertionSort mtimeLe files
    let filesToDelete := sortedFiles.take (files.length - cfg.maxSize)
    let names := filesToDelete.map (·.key)
    { st with diskFiles := st.diskFiles.filter (fun f => !(names.contains f.key)) }

/-- Model of `set` (part_001 lines 101–141): no-op when disabled; hashes
`params.key` through `generateCacheKey` to obtain the storage key; memory:
evict-oldest when at capacity, then `Map.set`; disk: write the file, then
enforce the capacity limit. -/
def set (cfg : CacheConfig) (st : CacheState) (now : ℚ) (p : SetParams) : CacheState :=
  if !cfg.enabled then st
  else
    let cacheKey := generateCacheKey cfg p.key p.temperature p.maxTokens
    let entry := buildEntry cfg now p
    match cfg.storageType with
    | .memory =>
      let st' := if cfg.maxSize ≤ st.memoryCache.length then evictOldest st else st
      { st' with memoryCache := setA st'.memoryCache cacheKey entry }
    | .disk => enforceDiskCacheLimit cfg (setDiskCache st now cacheKey entry)

/-- The error raised by node `readFileSync` when its path names a directory. -/
inductive JsError
  | eisdir
deriving DecidableEq

/-- Model of `clear` (part_001 lines 157–174).  Memory: clear the map.  Disk: the code
calls `readFileSync(this.storagePath, "utf-8")` — but `storagePath` is the
cache *directory* (created by the constructor with `mkdirSync`), and reading
a directory as a file raises `EISDIR`, outside any try/catch, so the disk
branch throws before deleting anything whenever the directory exists. -/
def clear (cfg : CacheConfig) (st : CacheState) : Except JsError CacheState :=
  match cfg.storageType with
  | .memory => .ok { st with memoryCache := [] }
  | .disk =>
    if st.storageDirExists then .error .eisdir
    else .ok st

/-- Result of `getStats` (part_001 lines 176–197). -/
structure CacheStats where
  size : Nat
  totalHits : Nat
  totalCostSaved : ℚ
  averageHitRate : ℚ
deriving DecidableEq

/-- Model of `getStats` (part_001 lines 176–197): entry count, total hits,
`Σ cost·hitCount`, and hits-per-entry (0 when empty).  The disk branch reads
every cache file back (`getAllDiskCache`); files written by `setDiskCache`
always parse, so it sees every file's content. -/
def getStats (cfg : CacheConfig) (st : CacheState) : CacheStats :=
  let cache : List CachedResponse :=
    match cfg.storageType with
    | .memory => st.memoryCache.map (·.2)
    | .disk => st.diskFiles.map (·.content)
  let totalHits := cache.foldl (fun s i => s + i.hitCount) 0
  let totalCostSaved := cache.foldl (fun s i => s + i.cost * (i.hitCount : ℚ)) 0
  { size := cache.length
    totalHits := totalHits
    totalCostSaved := totalCostSaved
    averageHitRate := if 0 < cache.length then (totalHits : ℚ) / (cache.length : ℚ) else 0 }

end ResponseCache

/-! ## UsageTracker (`src/src/config/types.obsidian.ts`) -/

/-- The `usage` block of a `UsageRecord` (built by `recordUsage` with all
five fields populated). -/
structure RecordUsage where
  input : ℚ
  output : ℚ
  cacheRead : ℚ
  cacheWrite : ℚ
  total : ℚ
deriving DecidableEq

/-- Model of `UsageRecord`: one LLM call's accounting entry.  `timestamp` is epoch
milliseconds. -/
structure UsageRecord where
  id : String
  agentId : String
  sessionId : String
  provider : String
  model : String
  usage : RecordUsage
  cost : ℚ
  timestamp : Int
deriving DecidableEq

/-- One provider/model leaf of a `UsageAggregate.breakdown`. -/
structure BreakdownLeaf where
  cost : ℚ
  tokens : ℚ
  requests : Nat
deriving DecidableEq

/-- The nested provider → model → leaf mapping. -/
def Breakdown : Type := List (String × List (String × BreakdownLeaf))

instance : DecidableEq Breakdown :=
  inferInstanceAs (DecidableEq (List (String × List (String × BreakdownLeaf))))

/-- Model of `UsageAggregate`: a rollup for one period bucket. -/
structure UsageAggregate where
  period : String
  totalCost : ℚ
  totalTokens : ℚ
  requestCount : Nat
  averageCostPerRequest : ℚ
  breakdown : Breakdown
deriving DecidableEq

/-- Aggregation granularity. -/
inductive Period
  | day
  | week
  | month
deriving DecidableEq

namespace UsageTracker

/-- The per-record state update of `aggregateRecords` on one aggregate
(types.obsidian.ts lines 286–306): bump the three totals and the record's
provider/model leaf (creating the provider map / zero leaf when absent). -/
def applyRecord (agg : UsageAggregate) (r : UsageRecord) : UsageAggregate :=
  { agg with
    totalCost := agg.totalCost + r.cost
    totalTokens := agg.totalTokens + r.usage.total
    requestCount := agg.requestCount + 1
    breakdown :=
      updA agg.breakdown r.provider []
        (fun inner =>
          updA inner r.model ⟨0, 0, 0⟩
            (fun leaf =>
              { cost := leaf.cost + r.cost
                tokens := leaf.tokens + r.usage.total
                requests := leaf.requests + 1 })) }

/-- The empty aggregate installed on a bucket's first record
(types.obsidian.ts lines 275–284). -/
def emptyAggregate (periodKey : String) : UsageAggregate :=
  { period := periodKey
    totalCost := 0
    totalTokens := 0
    requestCount := 0
    averageCostPerRequest := 0
    breakdown := [] }

/-- One iteration of the `records.forEach` loop of `aggregateRecords`:
ensure the record's bucket exists, then fold the record into it. -/
def aggregateStep (keyFn : Int → Period → String) (period : Period)
    (aggs : List (String × UsageAggregate)) (r : UsageRecord) :
    List (String × UsageAggregate) :=
  let periodKey := keyFn r.timestamp period
  updA aggs periodKey (emptyAggregate periodKey) (fun agg => applyRecord agg r)

/-- Sort key of the final `toSorted((a, b) => b.period.localeCompare(a.period))`:
period key descending.  (`localeCompare` collation may order strings
differently from Lean's code-point order; the sort only permutes the
aggregates, which is all the theorems below rely on.) -/
def periodGe (a b : UsageAggregate) : Prop := b.period ≤ a.period

instance : DecidableRel periodGe := fun a b => inferInstanceAs (Decidable (b.period ≤ a.period))

instance : IsTotal UsageAggregate periodGe := ⟨fun a b => le_total b.period a.period⟩

instance : IsTrans UsageAggregate periodGe := ⟨fun _ _ _ h h' => le_trans h' h⟩

/-- Model of `aggregateRecords` (types.obsidian.ts lines 266–316): group the records
into period buckets keyed by `getPeriodKey`, sum totals and per-leaf
figures, derive each bucket's average cost per request, and return the
buckets sorted by period key descending.

`getPeriodKey` derives the bucket key from the record's timestamp with JS
`Date` calendar arithmetic (lines 339–358); the aggregation is parametric
in that function, so the model takes it as the argument `keyFn`. -/
def aggregateRecords (keyFn : Int → Period → String) (records : List UsageRecord)
    (period : Period) : List UsageAggregate :=
  let aggregates := records.foldl (aggregateStep keyFn period) []
  let withAverages :=
    aggregates.map
      (fun kv =>
        (kv.1,
          { kv.2 with
            averageCostPerRequest :=
              if 0 < kv.2.requestCount then kv.2.totalCost / (kv.2.requestCount : ℚ)
              else 0 }))
  List.insertionSort periodGe (withAverages.map (·.2))

/-- Alert severity. -/
inductive AlertLevel
  | warning
  | critical
deriving DecidableEq

/-- A budget alert (the human-readable `message` string, a `toFixed`-formatted
rendering of the same numbers, is presentation only and not modelled). -/
structure Alert where
  level : AlertLevel
  threshold : ℚ
  current : ℚ
deriving DecidableEq

/-- Model of `BudgetStatus` (fields as populated by `checkBudget`). -/
structure BudgetStatus where
  period : Period
  budget : Option ℚ
  spent : ℚ
  remaining : Option ℚ
  percentage : Option ℚ
  overBudget : Bool
  alerts : List Alert
deriving DecidableEq

/-- Model of `checkBudget` (types.obsidian.ts lines 123–170), taking the records the
period window's `loadRecords` returned (file I/O abstracted as the record
list; the claimed properties are parametrized by the total matching spend).
`budget ? _ : undefined` and the alert guard `budget && status.percentage`
follow JS truthiness. -/
def checkBudget (records : List UsageRecord) (period : Period) (budget : Option ℚ) :
    BudgetStatus :=
  let spent := records.foldl (fun total r => total + r.cost) 0
  let status : BudgetStatus :=
    { period := period
      budget := budget
      spent := spent
      remaining := if jsTruthy budget then some (max 0 (budget.getD 0 - spent)) else none
      percentage := if jsTruthy budget then some (spent / budget.getD 0 * 100) else none
      overBudget := if jsTruthy budget then decide (budget.getD 0 < spent) else false
      alerts := [] }
  if jsTruthy budget && jsTruthy status.percentage then
    let p := (status.percentage).getD 0
    if 100 ≤ p then
      { status with alerts := [{ level := .critical, threshold := 100, current := p }] }
    else if 80 ≤ p then
      { status with alerts := [{ level := .warning, threshold := 80, current := p }] }
    else status
  else status

end UsageTracker

/-! ## BudgetEnforcer (`src/src/usage/budget-enforcer.ts`) -/

/-- A provider/model pair (`ModelRef`). -/
structure ModelRef where
  provider : String
  model : String
deriving DecidableEq

/-- One entry of a provider's configured model list (only the `id` field is
read by the selector). -/
structure ModelEntry where
  id : String
deriving DecidableEq

/-- A provider's configuration (`config.models.providers[provider]`). -/
structure ProviderConfig where
  models : List ModelEntry
deriving DecidableEq

/-- Model of `config.models.costOptimization.budgetLimits`. -/
structure BudgetLimits where
  daily : Option ℚ
deriving DecidableEq

/-- One per-model budget (`modelBudgets[model]`). -/
structure ModelBudget where
  costThreshold : Option ℚ
deriving DecidableEq

/-- Model of `config.models.costOptimization.budgetControls`. -/
structure BudgetControls where
  modelBudgets : Option (List (String × ModelBudget))
deriving DecidableEq

/-- Model of `config.models.costOptimization`. -/
structure CostOptimizationConfig where
  budgetLimits : Option BudgetLimits
  budgetControls : Option BudgetControls
deriving DecidableEq

/-- The `models` section of `OpenClawConfig` (the fields this layer reads). -/
structure ModelsConfig where
  providers : Option (List (String × ProviderConfig))
  costOptimization : Option CostOptimizationConfig
deriving DecidableEq

/-- Model of `OpenClawConfig`, restricted to the fields read by the enforcer and the
selector. -/
structure OpenClawConfig where
  models : Option ModelsConfig
deriving DecidableEq

/-- Model of `CostControls` (the enforcer's constructor argument). -/
structure CostControls where
  dailyBudget : Option ℚ
deriving DecidableEq

/-- Result of `checkBudgetUsage`. -/
structure BudgetCheckResult where
  allowed : Bool
  reason : Option String
  alternativeModel : Option ModelRef
deriving DecidableEq

namespace BudgetEnforcer

/-- Model of `checkBudgetUsage` (budget-enforcer.ts lines 12–31): resolves the daily
budget (`config?.models?.costOptimization?.budgetLimits?.daily ||
costControls.dailyBudget`) and tests for configured model budgets, but both
`if` bodies are empty (the checks are not wired to any spend data), so the
method returns `{ allowed: true }` unconditionally. -/
def checkBudgetUsage (costControls : CostControls) (_agentId : String)
    (_estimatedCost : ℚ) (config : OpenClawConfig) : BudgetCheckResult :=
  let dailyBudget :=
    jsOrOpt (((config.models.bind (·.costOptimization)).bind (·.budgetLimits)).bind (·.daily))
      costControls.dailyBudget
  let modelBudgets := (config.models.bind (·.costOptimization)).bind (·.budgetControls)
  let _ := dailyBudget
  let _ := modelBudgets
  { allowed := true, reason := none, alternativeModel := none }

end BudgetEnforcer

/-! ## CostOptimizedModelSelector (`src/unnamed/part_002`) -/

/-- Model of `TaskType`. -/
inductive TaskType
  | text
  | image
  | code
  | reasoning
  | translation
  | summary
deriving DecidableEq

/-- The shared `"low" | "medium" | "high"` scale (`TaskComplexity`,
`UrgencyLevel`, `CostSensitivity`). -/
inductive Level3
  | low
  | medium
  | high
deriving DecidableEq

/-- Model of `ModelSelectionCriteria`.  The optional booleans `requiresReasoning` /
`requiresMultimodal` are modelled as `Bool` (`undefined` and `false` are
indistinguishable at every use site, which only tests truthiness); the
optional numbers keep their `undefined` case because `0` and `undefined`
behave alike but differently from other values. -/
structure ModelSelectionCriteria where
  taskType : TaskType
  complexity : Level3
  urgency : Level3
  costSensitivity : Level3
  budgetRemaining : Option ℚ
  contextLength : Option ℚ
  requiresReasoning : Bool
  requiresMultimodal : Bool
deriving DecidableEq

/-- Per-million-token prices of a profile. -/
structure ModelCost where
  input : ℚ
  output : ℚ
deriving DecidableEq

/-- 1–10 performance scores of a profile. -/
structure ModelPerformance where
  speed : ℚ
  quality : ℚ
  reasoning : ℚ
deriving DecidableEq

/-- Capability flags of a profile. -/
structure Capabilities where
  text : Bool
  image : Bool
  reasoning : Bool
  code : Bool
  translation : Bool
  summary : Bool
deriving DecidableEq

/-- Model of `ModelPerformanceProfile`. -/
structure ModelPerformanceProfile where
  model : String
  cost : ModelCost
  performance : ModelPerformance
  capabilities : Capabilities
  contextWindow : ℚ
deriving DecidableEq

namespace CostOptimizedModelSelector

/-- The hardcoded performance registry seeded by `initializeModelProfiles`
(part_002 lines 115–207), in `Map` insertion order. -/
def modelProfiles : List (String × ModelPerformanceProfile) :=
  [("claude-3-5-sonnet-20241022",
    { model := "claude-3-5-sonnet-20241022"
      cost := { input := 3, output := 15 }
      performance := { speed := 6, quality := 9, reasoning := 8 }
      capabilities :=
        { text := true, image := true, reasoning := true, code := true,
          translation := true, summary := true }
      contextWindow := 200000 }),
   ("claude-3-5-haiku-20241022",
    { model := "claude-3-5-haiku-20241022"
      cost := { input := 0.8, output := 4 }
      performance := { speed := 8, quality := 7, reasoning := 6 }
      capabilities :=
        { text := true, image := true, reasoning := false, code := true,
          translation := true, summary := true }
      contextWindow := 200000 }),
   ("gpt-4o",
    { model := "gpt-4o"
      cost := { input := 5, output := 15 }
      performance := { speed := 7, quality := 9, reasoning := 8 }
      capabilities :=
        { text := true, image := true, reasoning := true, code := true,
          translation := true, summary := true }
      contextWindow := 128000 }),
   ("gpt-4o-mini",
    { model := "gpt-4o-mini"
      cost := { input := 0.15, output := 0.6 }
      performance := { speed := 9, quality := 6, reasoning := 5 }
      capabilities :=
        { text := true, image := true, reasoning := false, code := true,
          translation := true, summary := true }
      contextWindow := 128000 }),
   ("gpt-4-turbo",
    { model := "gpt-4-turbo"
      cost := { input := 10, output := 30 }
      performance := { speed := 5, quality := 8, reasoning := 9 }
      capabilities :=
        { text := true, image := true, reasoning := true, code := true,
          translation := true, summary := true }
      contextWindow := 128000 }),
   ("gpt-3.5-turbo",
    { model := "gpt-3.5-turbo"
      cost := { input := 0.5, output := 1.5 }
      performance := { speed := 10, quality := 5, reasoning := 4 }
      capabilities :=
        { text := true, image := false, reasoning := false, code := true,
          translation := true, summary := true }
      contextWindow := 16385 })]

/-- Model of `profile.capabilities[criteria.taskType]` (indexed capability read). -/
def capabilityFor (c : Capabilities) : TaskType → Bool
  | .text => c.text
  | .image => c.image
  | .code => c.code
  | .reasoning => c.reasoning
  | .translation => c.translation
  | .summary => c.summary

/-- The provider scan inside `findModelInConfig` (part_002 lines 246–254):
first provider (in `Object.entries` order) whose model list contains the id. -/
def findInProviders (providers : List (String × ProviderConfig)) (modelId : String) :
    Option ModelRef :=
  match providers with
  | [] => none
  | (provider, pc) :: t =>
    if (pc.models.find? (fun m => m.id == modelId)).isSome then
      some { provider := provider, model := modelId }
    else findInProviders t modelId

/-- Model of `findModelInConfig` (part_002 lines 243–257). -/
def findModelInConfig (config : OpenClawConfig) (modelId : String) : Option ModelRef :=
  findInProviders ((config.models.bind (·.providers)).getD []) modelId

/-- The four `continue` filters of `getAvailableModels` (part_002 lines
213–231), as one conjunction: task-type capability, multimodal requirement,
reasoning requirement, and context-length fit (`criteria.contextLength` is
truthiness-tested before the comparison). -/
def passesFilters (criteria : ModelSelectionCriteria) (profile : ModelPerformanceProfile) :
    Bool :=
  capabilityFor profile.capabilities criteria.taskType &&
  !(criteria.requiresMultimodal && !profile.capabilities.image) &&
  !(criteria.requiresReasoning && !profile.capabilities.reasoning) &&
  !(jsTruthy criteria.contextLength &&
    decide (profile.contextWindow < criteria.contextLength.getD 0))

/-- The registry iteration of `getAvailableModels` (part_002 lines 209–241)
over an explicit profile list. -/
def getAvailableModelsAux (config : OpenClawConfig) (criteria : ModelSelectionCriteria) :
    List (String × ModelPerformanceProfile) → List ModelRef
  | [] => []
  | (modelId, profile) :: t =>
    if passesFilters criteria profile then
      match findModelInConfig config modelId with
      | some modelRef => modelRef :: getAvailableModelsAux config criteria t
      | none => getAvailableModelsAux config criteria t
    else getAvailableModelsAux config criteria t

/-- Model of `getAvailableModels` (part_002 lines 209–241): registry models passing
the capability filters that also appear in the configuration's provider
model lists. -/
def getAvailableModels (config : OpenClawConfig) (criteria : ModelSelectionCriteria) :
    List ModelRef :=
  getAvailableModelsAux config criteria modelProfiles

/-- Model of `getModelCostEstimate` (part_002 lines 103–113): price of
`inputTokens`/`outputTokens` at the profile's per-million rates; `0` for
unknown models. -/
def getModelCostEstimate (model : String) (inputTokens outputTokens : ℚ) : ℚ :=
  match lookupA modelProfiles model with
  | none => 0
  | some profile =>
    inputTokens / 1000000 * profile.cost.input + outputTokens / 1000000 * profile.cost.output

/-- Model of `getQualityWeight` (part_002 lines 297–308). -/
def getQualityWeight (criteria : ModelSelectionCriteria) : ℚ :=
  match criteria.complexity with
  | .high => 3
  | .medium => 2
  | .low => 1

/-- Model of `getSpeedWeight` (part_002 lines 310–321). -/
def getSpeedWeight (criteria : ModelSelectionCriteria) : ℚ :=
  match criteria.urgency with
  | .high => 3
  | .medium => 2
  | .low => 1

/-- Model of `getCostWeight` (part_002 lines 323–334). -/
def getCostWeight (criteria : ModelSelectionCriteria) : ℚ :=
  match criteria.costSensitivity with
  | .high => 3
  | .medium => 2
  | .low => 1

/-- Model of `calculateCostScore` (part_002 lines 336–346): cheaper models score
higher, clamped at zero. -/
def calculateCostScore (cost : ModelCost) : ℚ :=
  max 0 (10 - (cost.input + cost.output) / 2 / 5)

/-- A scored candidate (`{ model, score }`). -/
structure ScoredModel where
  model : ModelRef
  score : ℚ
deriving DecidableEq

/-- Model of `scoreModels` (part_002 lines 259–295): weighted sum of quality, speed
and cost score, plus a reasoning bonus when required; candidates without a
registry profile are skipped. -/
def scoreModels (models : List ModelRef) (criteria : ModelSelectionCriteria) :
    List ScoredModel :=
  match models with
  | [] => []
  | m :: t =>
    match lookupA modelProfiles m.model with
    | none => scoreModels t criteria
    | some profile =>
      let score :=
        profile.performance.quality * getQualityWeight criteria +
        profile.performance.speed * getSpeedWeight criteria +
        calculateCostScore profile.cost * getCostWeight criteria +
        (if criteria.requiresReasoning then profile.performance.reasoning * 2 else 0)
      { model := m, score := score } :: scoreModels t criteria

/-- Sort key of `toSorted((a, b) => b.score - a.score)`: score descending. -/
def scoreGe (a b : ScoredModel) : Prop := b.score ≤ a.score

instance : DecidableRel scoreGe := fun a b => inferInstanceAs (Decidable (b.score ≤ a.score))

instance : IsTotal ScoredModel scoreGe := ⟨fun a b => le_total b.score a.score⟩

instance : IsTrans ScoredModel scoreGe := ⟨fun _ _ _ h h' => le_trans h' h⟩

/-- The raw `(inputPrice + outputPrice)` sum used by the cheapest-model
fallback comparator (part_002 lines 370–376).  The source reads the profile
with a non-null assertion (`get(...)!`); every model reaching the comparator
was scored, hence has a profile, so the `none` case is unreachable there. -/
def priceSum (modelId : String) : ℚ :=
  match lookupA modelProfiles modelId with
  | none => 0
  | some profile => profile.cost.input + profile.cost.output

/-- Sort key of the cheapest-model fallback: price sum ascending. -/
def priceLe (a b : ScoredModel) : Prop := priceSum a.model.model ≤ priceSum b.model.model

instance : DecidableRel priceLe :=
  fun a b => inferInstanceAs (Decidable (priceSum a.model.model ≤ priceSum b.model.model))

instance : IsTotal ScoredModel priceLe :=
  ⟨fun a b => le_total (priceSum a.model.model) (priceSum b.model.model)⟩

instance : IsTrans ScoredModel priceLe := ⟨fun _ _ _ h h' => le_trans h h'⟩

/-- Model of `applyBudgetConstraints` (part_002 lines 348–382): without a truthy
`budgetRemaining`, the top-scored model; otherwise restrict to models whose
reference-request estimate (1000 input + 500 output tokens) fits the budget,
falling back to the cheapest model by raw price sum when none fit.
Returns `none` only on an empty input list (the caller tests emptiness
first, so that case is unreachable from `selectOptimalModel`). -/
def applyBudgetConstraints (scoredModels : List ScoredModel)
    (criteria : ModelSelectionCriteria) : Option ModelRef :=
  if !(jsTruthy criteria.budgetRemaining) then (scoredModels.head?).map (·.model)
  else
    let affordableModels :=
      scoredModels.filter
        (fun s =>
          match lookupA modelProfiles s.model.model with
          | none => false
          | some _ =>
            decide (getModelCostEstimate s.model.model 1000 500 ≤
              criteria.budgetRemaining.getD 0))
    if affordableModels.length = 0 then
      ((List.insertionSort priceLe scoredModels).head?).map (·.model)
    else (affordableModels.head?).map (·.model)

/-- Model of `selectOptimalModel` (part_002 lines 51–66): filter, score, sort by
score descending (JS `toSorted` is a stable sort, modelled by
`List.insertionSort`), throw `"No suitable models found for the given
criteria"` when no candidate survived, else apply the budget constraints.
(The trailing `.error` branch mirrors the unreachable `none` case of
`applyBudgetConstraints` on a non-empty list.) -/
def selectOptimalModel (config : OpenClawConfig) (criteria : ModelSelectionCriteria) :
    Except String ModelRef :=
  let availableModels := getAvailableModels config criteria
  let scoredModels := scoreModels availableModels criteria
  let sortedModels := List.insertionSort scoreGe scoredModels
  if sortedModels.length = 0 then .error "No suitable models found for the given criteria"
  else
    match applyBudgetConstraints sortedModels criteria with
    | some m => .ok m
    | none => .error "No suitable models found for the given criteria"

end CostOptimizedModelSelector

/-! ## Helper lemmas on the association-list and sorting primitives -/

theorem lookupA_setA_self {β : Type} (l : List (String × β)) (k : String) (v : β) :
    lookupA (setA l k v) k = some v := by
  induction l with
  | nil => simp [setA, lookupA]
  | cons h t ih =>
    obtain ⟨k', v'⟩ := h
    by_cases hk : k' = k
    · simp [setA, hk, lookupA]
    · simp [setA, hk, lookupA, ih]

theorem mem_setA {β : Type} {l : List (String × β)} {k : String} {v : β} {kv : String × β}
    (h : kv ∈ setA l k v) : kv ∈ l ∨ kv = (k, v) := by
  induction l with
  | nil => simp [setA] at h; simp [h]
  | cons hd t ih =>
    obtain ⟨k', v'⟩ := hd
    by_cases hk : k' = k
    · simp [setA, hk] at h
      rcases h with h | h
      · right; simp [h]
      · left; simp [h]
    · simp [setA, hk] at h
      rcases h with h | h
      · left; simp [h]
      · rcases ih h with h' | h'
        · left; simp [h']
        · right; exact h'

theorem lookupA_eq_none_of_not_mem {β : Type} {l : List (String × β)} {k : String}
    (h : k ∉ l.map (·.1)) : lookupA l k = none := by
  induction l with
  | nil => rfl
  | cons hd t ih =>
    obtain ⟨k', v'⟩ := hd
    simp only [List.map_cons, List.mem_cons] at h
    push_neg at h
    have hk : k' ≠ k := fun he => h.1 he.symm
    simp only [lookupA, hk, if_false]
    exact ih h.2

theorem lookupA_eraseA_self {β : Type} {l : List (String × β)} {k : String} {e : β}
    (hl : lookupA l k = some e) (hnd : (l.map (·.1)).Nodup) :
    lookupA (eraseA l k) k = none := by
  induction l with
  | nil => simp [lookupA] at hl
  | cons hd t ih =>
    obtain ⟨k', v'⟩ := hd
    simp at hnd
    by_cases hk : k' = k
    · subst hk
      simp [eraseA]
      exact lookupA_eq_none_of_not_mem (by simpa using hnd.1)
    · simp [lookupA, hk] at hl
      simp [eraseA, hk, lookupA]
      exact ih hl hnd.2

theorem length_eraseA {β : Type} {l : List (String × β)} {k : String} {e : β}
    (hl : lookupA l k = some e) : (eraseA l k).length + 1 = l.length := by
  induction l with
  | nil => simp [lookupA] at hl
  | cons hd t ih =>
    obtain ⟨k', v'⟩ := hd
    by_cases hk : k' = k
    · simp [eraseA, hk]
    · simp [lookupA, hk] at hl
      simp [eraseA, hk]
      exact ih hl

theorem lookupA_isSome_of_mem {β : Type} {l : List (String × β)} {k : String} {v : β}
    (h : (k, v) ∈ l) : (lookupA l k).isSome := by
  induction l with
  | nil => simp at h
  | cons hd t ih =>
    obtain ⟨k', v'⟩ := hd
    by_cases hk : k' = k
    · simp [lookupA, hk]
    · simp at h
      rcases h with h | h
      · exact absurd h.1.symm hk
      · simp [lookupA, hk]
        exact ih h

theorem lookupA_eq_of_mem_nodup {β : Type} {l : List (String × β)} {k : String} {v : β}
    (h : (k, v) ∈ l) (hnd : (l.map (·.1)).Nodup) : lookupA l k = some v := by
  induction l with
  | nil => simp at h
  | cons hd t ih =>
    obtain ⟨k', v'⟩ := hd
    simp only [List.map_cons, List.nodup_cons] at hnd
    rcases List.mem_cons.mp h with h | h
    · cases h
      simp [lookupA]
    · have hk : k' ≠ k := by
        intro he
        subst he
        exact hnd.1 (by simpa using List.mem_map_of_mem (·.1) h)
      simp only [lookupA, hk, if_false]
      exact ih h hnd.2

theorem mem_updA {β : Type} {l : List (String × β)} {k : String} {d : β} {f : β → β}
    {P : β → Prop} (hall : ∀ kv ∈ l, P kv.2) (hd : P (f d))
    (hf : ∀ kv ∈ l, P (f kv.2)) : ∀ kv ∈ updA l k d f, P kv.2 := by
  induction l with
  | nil =>
    intro kv hkv
    simp [updA] at hkv
    simp [hkv, hd]
  | cons hd' t ih =>
    obtain ⟨k', v'⟩ := hd'
    intro kv hkv
    by_cases hk : k' = k
    · simp [updA, hk] at hkv
      rcases hkv with h | h
      · simpa [h] using hf (k', v') (by simp)
      · exact hall kv (by simp [h])
    · simp [updA, hk] at hkv
      rcases hkv with h | h
      · exact hall kv (by simp [h])
      · exact ih (fun kv h' => hall kv (by simp [h'])) (fun kv h' => hf kv (by simp [h'])) kv h

theorem updA_map_sum {β M : Type} [AddCommMonoid M] (μ : β → M) (c : M)
    (l : List (String × β)) (k : String) (d : β) (f : β → β)
    (hf : ∀ v, μ (f v) = μ v + c) (hd : μ d = 0) :
    ((updA l k d f).map (fun kv => μ kv.2)).sum = (l.map (fun kv => μ kv.2)).sum + c := by
  induction l with
  | nil => simp [updA, hf, hd]
  | cons hd' t ih =>
    obtain ⟨k', v'⟩ := hd'
    by_cases hk : k' = k
    · simp [updA, hk, hf]
      abel
    · simp [updA, hk, ih]
      abel

theorem mem_of_head? {α : Type} {l : List α} {a : α} (h : l.head? = some a) : a ∈ l := by
  cases l with
  | nil => simp at h
  | cons x t => simp at h; simp [h]

theorem mem_of_insertionSort {α : Type} {r : α → α → Prop} [DecidableRel r] {l : List α}
    {a : α} (h : a ∈ List.insertionSort r l) : a ∈ l :=
  (List.perm_insertionSort r l).subset h

theorem mem_insertionSort_of_mem {α : Type} {r : α → α → Prop} [DecidableRel r] {l : List α}
    {a : α} (h : a ∈ l) : a ∈ List.insertionSort r l :=
  ((List.perm_insertionSort r l).symm).subset h

theorem find?_filter_key_none (l : List DiskFile) (k : String) :
    ((l.filter (fun f => !(f.key == k))).find? (fun f => f.key == k)) = none := by
  induction l with
  | nil => rfl
  | cons f t ih =>
    by_cases hk : f.key = k
    · simp [List.filter_cons, hk, ih]
    · simp only [List.filter_cons, hk]
      simp [List.find?, hk, ih]

theorem length_filter_key (l : List DiskFile) (k : String) (f : DiskFile)
    (hf : l.find? (fun g => g.key == k) = some f) (hnd : (l.map (·.key)).Nodup) :
    (l.filter (fun g => !(g.key == k))).length + 1 = l.length := by
  induction l with
  | nil => simp [List.find?] at hf
  | cons g t ih =>
    simp only [List.map_cons, List.nodup_cons] at hnd
    by_cases hk : g.key = k
    · have hrest : t.filter (fun g' => !(g'.key == k)) = t := by
        apply List.filter_eq_self.mpr
        intro x hx
        have hx' : x.key ≠ k := by
          intro he
          exact hnd.1 (by simpa [he, hk] using List.mem_map_of_mem (·.key) hx)
        simp [hx']
      simp [List.filter_cons, hk, hrest]
    · have hf' : t.find? (fun g' => g'.key == k) = some f := by
        have hg2 : (g.key == k) = false := by simp [hk]
        simpa [List.find?, hg2] using hf
      have hlen := ih hf' hnd.2
      have hg : (!(g.key == k)) = true := by simp [hk]
      simp only [List.filter_cons, hg, if_true, List.length_cons]
      omega

theorem mem_writeFile {l : List DiskFile} {now : ℚ} {k : String} {r : CachedResponse}
    {f : DiskFile} (h : f ∈ ResponseCache.writeFile l now k r) :
    f ∈ l ∨ f = ⟨k, now, r⟩ := by
  induction l with
  | nil => simp [ResponseCache.writeFile] at h; simp [h]
  | cons g t ih =>
    by_cases hk : g.key = k
    · simp [ResponseCache.writeFile, hk] at h
      rcases h with h | h
      · right; exact h
      · left; simp [h]
    · simp [ResponseCache.writeFile, hk] at h
      rcases h with h | h
      · left; simp [h]
      · rcases ih h with h' | h'
        · left; simp [h']
        · right; exact h'

/-- Well-formed cache state: the in-memory map and the cache directory hold at
most one entry per key, which JS `Map` and the filesystem guarantee. -/
def CacheWF (st : CacheState) : Prop :=
  (st.memoryCache.map (·.1)).Nodup ∧ (st.diskFiles.map (·.key)).Nodup

instance (st : CacheState) : Decidable (CacheWF st) := by
  unfold CacheWF
  infer_instance

/-! ## Concrete fixtures for the closed theorems -/

/-- The SHA-256 hex digest computed by node:crypto
`createHash("sha256").update(s).digest("hex")` at the one concrete string the
closed theorems below ever digest: `sha256("k1") =
"6ab9f1eb8f7d3388f4f9d586f66e99fd54080df2c446f0e58668b09c08a16dd0"`.
Other inputs are never exercised. -/
def sha256Hex : String → String := fun s =>
  if s = "k1" then "6ab9f1eb8f7d3388f4f9d586f66e99fd54080df2c446f0e58668b09c08a16dd0"
  else "sha256-unexercised:" ++ s

/-- The cache configuration produced by the `ResponseCache` constructor with
no overrides (part_001 lines 38–59): enabled, memory backend, capacity 1000,
default TTL 3600 s, the three per-model TTL entries, both hashing flags on,
SHA-256 digest. -/
def cfgMemDefault : CacheConfig :=
  { enabled := true
    storageType := .memory
    maxSize := 1000
    ttlDefault := 3600
    ttlPerModel :=
      [("gpt-4o", 7200), ("claude-3-5-sonnet-20241022", 7200), ("gpt-4o-mini", 1800)]
    includeTemperature := true
    includeMaxTokens := true
    hashFn := sha256Hex }

/-- The same configuration with the disk backend selected. -/
def cfgDiskDefault : CacheConfig := { cfgMemDefault with storageType := .disk }

/-- The spec's end-to-end cache scenario call:
`set({key:"k1", response:"R", usage:{input:100,output:50}, cost:0.01})`. -/
def k1SetParams : ResponseCache.SetParams :=
  { key := "k1"
    response := "R"
    usage := { input := 100, output := 50 }
    cost := 1/100
    ttl := none
    temperature := none
    maxTokens := none }

/-- Fresh memory-backend state (the constructor creates no directory). -/
def st0 : CacheState := { memoryCache := [], diskFiles := [], storageDirExists := false }

/-- Fresh disk-backend state (the constructor has created the cache
directory with `mkdirSync`). -/
def stDisk0 : CacheState := { memoryCache := [], diskFiles := [], storageDirExists := true }

/-- Memory-backend state after the scenario's `set` call at t = 1000 ms. -/
def stK1 : CacheState := ResponseCache.set cfgMemDefault st0 1000 k1SetParams

/-- Disk-backend state after the same `set` call. -/
def stDiskK1 : CacheState := ResponseCache.set cfgDiskDefault stDisk0 1000 k1SetParams

/-- The storage key under which the scenario's entry actually lands:
`generateCacheKey({prompt:"k1"})`, i.e. `sha256("k1")`. -/
def hashedK1 : String := ResponseCache.generateCacheKey cfgMemDefault "k1" none none

/-! ## Claim theorems -/

/-- C1: the claimed round trip fails on the code.  After
`set({key:"k1", response:"R", usage:{input:100,output:50}, cost:0.01})` on an
enabled memory cache, an immediate `get("k1")` (well within the TTL) returns
`null`, not the cached response: `set` re-hashes its `key` parameter through
`generateCacheKey` and stores the entry under `sha256("k1")`, while `get`
looks the raw key up.  The entry is retrievable only under the hashed key,
where the hit count then reaches 1 and 2 — so no sequence of `get("k1")`
reads ever returns the response or drives `hitCount` to 2. -/
theorem c1_set_get_key_mismatch :
    (ResponseCache.get cfgMemDefault stK1 1000 "k1").1 = none ∧
    ((ResponseCache.get cfgMemDefault stK1 1000 hashedK1).1.map (·.response)) = some "R" ∧
    ((ResponseCache.get cfgMemDefault
        (ResponseCache.get cfgMemDefault stK1 1000 hashedK1).2 1000 hashedK1).1.map
          (·.hitCount)) = some 2 := by
  refine ⟨?_, ?_, ?_⟩ <;>
    norm_num +decide [ResponseCache.get, ResponseCache.storeLookup, stK1, ResponseCache.set,
      ResponseCache.generateCacheKey, ResponseCache.buildEntry, cfgMemDefault, sha256Hex,
      k1SetParams, st0, setA, lookupA, jsOr, ResponseCache.evictOldest, hashedK1]

/-- C2: `checkBudgetUsage` returns `allowed = true` with no reason and no
alternative model for every agent id, estimated cost, cost-controls and
configuration — its budget-ceiling and per-model threshold branches have
empty bodies. -/
theorem c2_checkBudgetUsage_always_allows (cc : CostControls) (agentId : String)
    (estimatedCost : ℚ) (config : OpenClawConfig) :
    BudgetEnforcer.checkBudgetUsage cc agentId estimatedCost config =
      { allowed := true, reason := none, alternativeModel := none } := rfl

/-- C8 (counterexample): caching a `gpt-4o` response with the default
configuration — which configures a per-model TTL of 7200 s for `gpt-4o` —
via a `set` call without `ttl` stores an entry whose TTL is the global
default 3600 s, not the configured per-model 7200 s, falsifying the claim
that the per-model default applies.  (`set` never consults
`config.ttl.perModel`; it does not even receive a model.) -/
theorem c8_per_model_ttl_not_applied :
    lookupA cfgMemDefault.ttlPerModel "gpt-4o" = some 7200 ∧
    k1SetParams.ttl = none ∧
    (lookupA stK1.memoryCache hashedK1).map (·.ttl) = some 3600 ∧
    cfgMemDefault.ttlDefault = 3600 ∧ (3600 : ℚ) ≠ 7200 := by
  refine ⟨?_, rfl, ?_, rfl, by norm_num⟩ <;>
    norm_num +decide [stK1, ResponseCache.set, ResponseCache.generateCacheKey,
      ResponseCache.buildEntry, cfgMemDefault, sha256Hex, k1SetParams, st0, setA, lookupA,
      jsOr, ResponseCache.evictOldest, hashedK1]

/-- C9: `clear()` empties the memory backend and completes, but on the disk
backend — here holding one cache file, with the cache directory in place as
the constructor leaves it — it throws `EISDIR`: the code calls
`readFileSync` on the cache *directory* itself (instead of listing it with
`readdirSync`), deleting nothing. -/
theorem c9_clear_disk_eisdir :
    ResponseCache.clear cfgMemDefault stK1 = .ok { stK1 with memoryCache := [] } ∧
    (ResponseCache.getStats cfgMemDefault { stK1 with memoryCache := [] }).size = 0 ∧
    (ResponseCache.getStats cfgDiskDefault stDiskK1).size = 1 ∧
    ResponseCache.clear cfgDiskDefault stDiskK1 = .error .eisdir := by
  refine ⟨?_, ?_, ?_, ?_⟩ <;>
    norm_num +decide [ResponseCache.clear, ResponseCache.getStats, stK1, stDiskK1, ResponseCache.set,
      ResponseCache.generateCacheKey, ResponseCache.buildEntry, cfgMemDefault, cfgDiskDefault,
      sha256Hex, k1SetParams, st0, stDisk0, setA, lookupA, jsOr, ResponseCache.evictOldest,
      ResponseCache.setDiskCache, ResponseCache.writeFile, ResponseCache.enforceDiskCacheLimit]

theorem set_disk_memoryCache {cfg : CacheConfig} (st : CacheState) (now : ℚ)
    (p : ResponseCache.SetParams) (hen : cfg.enabled = true) (hst : cfg.storageType = .disk) :
    (ResponseCache.set cfg st now p).memoryCache = st.memoryCache := by
  simp only [ResponseCache.set, hen, Bool.not_true, Bool.false_eq_true, if_false, hst]
  unfold ResponseCache.enforceDiskCacheLimit
  dsimp only
  split <;> rfl

theorem set_memory_memoryCache {cfg : CacheConfig} (st : CacheState) (now : ℚ)
    (p : ResponseCache.SetParams) (hen : cfg.enabled = true)
    (hst : cfg.storageType = .memory) :
    (ResponseCache.set cfg st now p).memoryCache =
      setA (if cfg.maxSize ≤ st.memoryCache.length then st.memoryCache.drop 1
            else st.memoryCache)
        (ResponseCache.generateCacheKey cfg p.key p.temperature p.maxTokens)
        (ResponseCache.buildEntry cfg now p) := by
  simp only [ResponseCache.set, hen, Bool.not_true, Bool.false_eq_true, if_false, hst]
  split <;> rfl

theorem set_memory_diskFiles {cfg : CacheConfig} (st : CacheState) (now : ℚ)
    (p : ResponseCache.SetParams) (hen : cfg.enabled = true)
    (hst : cfg.storageType = .memory) :
    (ResponseCache.set cfg st now p).diskFiles = st.diskFiles := by
  simp only [ResponseCache.set, hen, Bool.not_true, Bool.false_eq_true, if_false, hst]
  split <;> rfl

theorem enforce_diskFiles_subset (cfg : CacheConfig) (st : CacheState) :
    (ResponseCache.enforceDiskCacheLimit cfg st).diskFiles ⊆ st.diskFiles := by
  unfold ResponseCache.enforceDiskCacheLimit
  dsimp only
  split
  · exact fun _ h => h
  · exact fun x hx => (List.mem_filter.mp hx).1

theorem set_disk_diskFiles_mem {cfg : CacheConfig} {st : CacheState} {now : ℚ}
    {p : ResponseCache.SetParams} {f : DiskFile} (hen : cfg.enabled = true)
    (hst : cfg.storageType = .disk) (hf : f ∈ (ResponseCache.set cfg st now p).diskFiles) :
    f ∈ st.diskFiles ∨
      f = ⟨ResponseCache.generateCacheKey cfg p.key p.temperature p.maxTokens, now,
        ResponseCache.buildEntry cfg now p⟩ := by
  simp only [ResponseCache.set, hen, Bool.not_true, Bool.false_eq_true, if_false, hst] at hf
  have hf' := enforce_diskFiles_subset cfg _ hf
  exact mem_writeFile hf'

/-- C8 (amended): when the `ttl` parameter is absent, the entry materialized
and stored by `set` always carries the *global* default TTL
(`config.ttl.default`); the per-model TTL table is never consulted — `set`
does not even receive a model.  Concretely: the built entry's TTL is
`config.ttl.default`; every entry that `set` adds to either backend carries
that TTL; and on the memory backend the entry is stored under the hashed key
with exactly that TTL. -/
theorem c8_set_ttl_is_global_default (cfg : CacheConfig) (st : CacheState) (now : ℚ)
    (p : ResponseCache.SetParams) (hen : cfg.enabled = true) (httl : p.ttl = none) :
    (ResponseCache.buildEntry cfg now p).ttl = cfg.ttlDefault ∧
    (∀ kv ∈ (ResponseCache.set cfg st now p).memoryCache,
        kv ∉ st.memoryCache → kv.2.ttl = cfg.ttlDefault) ∧
    (∀ f ∈ (ResponseCache.set cfg st now p).diskFiles,
        f ∉ st.diskFiles → f.content.ttl = cfg.ttlDefault) ∧
    (cfg.storageType = .memory →
        lookupA (ResponseCache.set cfg st now p).memoryCache
            (ResponseCache.generateCacheKey cfg p.key p.temperature p.maxTokens) =
          some (ResponseCache.buildEntry cfg now p)) := by
  have hentry : (ResponseCache.buildEntry cfg now p).ttl = cfg.ttlDefault := by
    simp [ResponseCache.buildEntry, jsOr, httl]
  refine ⟨hentry, ?_, ?_, ?_⟩
  · intro kv hkv hnot
    cases hst : cfg.storageType with
    | disk =>
      rw [set_disk_memoryCache st now p hen hst] at hkv
      exact absurd hkv hnot
    | memory =>
      rw [set_memory_memoryCache st now p hen hst] at hkv
      rcases mem_setA hkv with h | h
      · exfalso
        apply hnot
        by_cases hc : cfg.maxSize ≤ st.memoryCache.length
        · rw [if_pos hc] at h
          exact List.drop_subset 1 st.memoryCache h
        · rw [if_neg hc] at h
          exact h
      · rw [h]
        exact hentry
  · intro f hf hnot
    cases hst : cfg.storageType with
    | memory =>
      rw [set_memory_diskFiles st now p hen hst] at hf
      exact absurd hf hnot
    | disk =>
      rcases set_disk_diskFiles_mem hen hst hf with h | h
      · exact absurd h hnot
      · rw [h]
        exact hentry
  · intro hst
    rw [set_memory_memoryCache st now p hen hst]
    exact lookupA_setA_self _ _ _

/-- C8 witness: the amended theorem applied to the default configuration and
the spec scenario's `set` call (no `ttl` argument): the materialized entry's
TTL is the global default. -/
theorem c8_set_ttl_is_global_default_witness :
    (ResponseCache.buildEntry cfgMemDefault 1000 k1SetParams).ttl =
      cfgMemDefault.ttlDefault :=
  (c8_set_ttl_is_global_default cfgMemDefault st0 1000 k1SetParams rfl rfl).1

/-- C7: TTL expiry at read time, on both backends.  For an entry stored under
key `k`: a `get` at a time with `now - timestamp > ttl * 1000` (ttl seconds)
misses, deletes the entry from the backing store and drops `getStats().size`
by one; a `get` with `now - timestamp ≤ ttl * 1000` returns the entry (with
its hit counter bumped). -/
theorem c7_get_ttl_expiry (cfg : CacheConfig) (st : CacheState) (now : ℚ) (k : String)
    (e : CachedResponse) (hen : cfg.enabled = true) (hwf : CacheWF st)
    (hl : ResponseCache.storeLookup cfg st k = some e) :
    (e.ttl * 1000 < now - e.timestamp →
        (ResponseCache.get cfg st now k).1 = none ∧
        ResponseCache.storeLookup cfg (ResponseCache.get cfg st now k).2 k = none ∧
        (ResponseCache.getStats cfg (ResponseCache.get cfg st now k).2).size + 1 =
          (ResponseCache.getStats cfg st).size) ∧
    (now - e.timestamp ≤ e.ttl * 1000 →
        (ResponseCache.get cfg st now k).1 = some { e with hitCount := e.hitCount + 1 }) := by
  cases hst : cfg.storageType with
  | memory =>
    have hl' : lookupA st.memoryCache k = some e := by
      simpa [ResponseCache.storeLookup, hst] using hl
    constructor
    · intro hexp
      have h1 : ResponseCache.get cfg st now k = (none, ResponseCache.deleteKey cfg st k) := by
        simp [ResponseCache.get, hen, ResponseCache.storeLookup, hst, hl', hexp]
      refine ⟨by rw [h1], ?_, ?_⟩
      · rw [h1]
        simp only [ResponseCache.storeLookup, ResponseCache.deleteKey, hst]
        exact lookupA_eraseA_self hl' hwf.1
      · rw [h1]
        simp only [ResponseCache.getStats, ResponseCache.deleteKey, hst, List.length_map]
        exact length_eraseA hl'
    · intro hfresh
      have hnot : ¬ (now - e.timestamp > e.ttl * 1000) := not_lt.mpr hfresh
      simp [ResponseCache.get, hen, ResponseCache.storeLookup, hst, hl', hnot]
  | disk =>
    have hl0 : (st.diskFiles.find? (fun f => f.key == k)).map (·.content) = some e := by
      simpa [ResponseCache.storeLookup, hst] using hl
    rcases Option.map_eq_some'.mp hl0 with ⟨f, hf, hfe⟩
    constructor
    · intro hexp
      have h1 : ResponseCache.get cfg st now k = (none, ResponseCache.deleteKey cfg st k) := by
        simp [ResponseCache.get, hen, ResponseCache.storeLookup, hst, hf, hfe, hexp]
      refine ⟨by rw [h1], ?_, ?_⟩
      · rw [h1]
        simp only [ResponseCache.storeLookup, ResponseCache.deleteKey, hst]
        rw [find?_filter_key_none]
        rfl
      · rw [h1]
        simp only [ResponseCache.getStats, ResponseCache.deleteKey, hst, List.length_map]
        exact length_filter_key st.diskFiles k f hf hwf.2
    · intro hfresh
      have hnot : ¬ (now - e.timestamp > e.ttl * 1000) := not_lt.mpr hfresh
      simp [ResponseCache.get, hen, ResponseCache.storeLookup, hst, hf, hfe, hnot]

/-- The single-entry memory state used by the C7 witness: one entry stored
under `"kw"` with a 1-second TTL created at t = 1000 ms. -/
def eW : CachedResponse :=
  { response := "resp", usage := { input := 1, output := 1 }, cost := 1,
    timestamp := 1000, ttl := 1, hitCount := 0 }

/-- State holding the C7 witness entry. -/
def stW : CacheState := { memoryCache := [("kw", eW)], diskFiles := [], storageDirExists := false }

/-- C7 witness: the expiry theorem applied to a 1-second-TTL entry read 1.101
seconds after creation (a miss that purges the entry from the stats) and 0.9
seconds after creation (a hit). -/
theorem c7_get_ttl_expiry_witness :
    ((ResponseCache.get cfgMemDefault stW 2101 "kw").1 = none ∧
      ResponseCache.storeLookup cfgMemDefault
          (ResponseCache.get cfgMemDefault stW 2101 "kw").2 "kw" = none ∧
      (ResponseCache.getStats cfgMemDefault
            (ResponseCache.get cfgMemDefault stW 2101 "kw").2).size + 1 =
        (ResponseCache.getStats cfgMemDefault stW).size) ∧
    (ResponseCache.get cfgMemDefault stW 1900 "kw").1 =
      some { eW with hitCount := eW.hitCount + 1 } := by
  constructor
  · exact (c7_get_ttl_expiry cfgMemDefault stW 2101 "kw" eW rfl (by constructor <;> simp [stW])
      rfl).1 (by norm_num [eW])
  · exact (c7_get_ttl_expiry cfgMemDefault stW 1900 "kw" eW rfl (by constructor <;> simp [stW])
      rfl).2 (by norm_num [eW])

/-- C4: budget alert thresholds.  With a configured ceiling `b > 0` and total
matching spend `s`, `checkBudget` reports `percentage = s/b·100`,
`remaining = max(0, b−s)`, `overBudget ↔ s > b`, and exactly one `critical`
alert when the percentage is ≥ 100, exactly one `warning` alert when it is in
[80, 100), and no alerts below 80 — never both; with no configured ceiling
the alert list is empty. -/
theorem c4_budget_alert_thresholds (records : List UsageRecord) (period : Period) (b : ℚ)
    (hb : 0 < b) :
    (UsageTracker.checkBudget records period none).alerts = [] ∧
    (UsageTracker.checkBudget records period (some b)).spent =
      records.foldl (fun total r => total + r.cost) 0 ∧
    (UsageTracker.checkBudget records period (some b)).percentage =
      some (records.foldl (fun total r => total + r.cost) 0 / b * 100) ∧
    (UsageTracker.checkBudget records period (some b)).remaining =
      some (max 0 (b - records.foldl (fun total r => total + r.cost) 0)) ∧
    ((UsageTracker.checkBudget records period (some b)).overBudget = true ↔
      b < records.foldl (fun total r => total + r.cost) 0) ∧
    (UsageTracker.checkBudget records period (some b)).alerts =
      (if 100 ≤ records.foldl (fun total r => total + r.cost) 0 / b * 100 then
        [{ level := .critical, threshold := 100,
           current := records.foldl (fun total r => total + r.cost) 0 / b * 100 }]
      else if 80 ≤ records.foldl (fun total r => total + r.cost) 0 / b * 100 then
        [{ level := .warning, threshold := 80,
           current := records.foldl (fun total r => total + r.cost) 0 / b * 100 }]
      else []) := by
  have hb0 : b ≠ 0 := ne_of_gt hb
  have hT : jsTruthy (some b) = true := by simp [jsTruthy, hb0]
  refine ⟨by simp [UsageTracker.checkBudget, jsTruthy], ?_, ?_, ?_, ?_, ?_⟩
  · simp only [UsageTracker.checkBudget]
    split_ifs <;> rfl
  · simp only [UsageTracker.checkBudget, hT]
    split_ifs <;> simp [hT]
  · simp only [UsageTracker.checkBudget, hT]
    split_ifs <;> simp [hT]
  · simp only [UsageTracker.checkBudget, hT]
    split_ifs <;> simp [hT]
  · by_cases hz : records.foldl (fun total r => total + r.cost) 0 / b * 100 = 0
    · simp [UsageTracker.checkBudget, jsTruthy, hb0, hz]
      norm_num
    · have hg : jsTruthy (some (records.foldl (fun total r => total + r.cost) 0 / b * 100)) =
          true := by
        simp [jsTruthy, hz]
      simp only [UsageTracker.checkBudget, hT, eq_self_iff_true, if_true, Option.getD_some,
        hg, Bool.and_self]
      split_ifs <;> rfl

/-- The single 80-cost record driving the C4 witness. -/
def recsW : List UsageRecord :=
  [{ id := "w", agentId := "a", sessionId := "s", provider := "p", model := "m",
     usage := { input := 0, output := 0, cacheRead := 0, cacheWrite := 0, total := 0 },
     cost := 80, timestamp := 0 }]

/-- C4 witness: the thresholds theorem applied at budget 100 and spend 80
yields exactly one warning alert. -/
theorem c4_budget_alert_thresholds_witness :
    (UsageTracker.checkBudget recsW Period.day (some 100)).alerts =
      [{ level := .warning, threshold := 80, current := 80 }] := by
  have h := (c4_budget_alert_thresholds recsW Period.day 100 (by norm_num)).2.2.2.2.2
  rw [h]
  norm_num [recsW]

/-- Model of `sum(breakdown[provider][*].cost)` over one provider's model map. -/
def innerCost (inner : List (String × BreakdownLeaf)) : ℚ :=
  (inner.map (fun kv => kv.2.cost)).sum

/-- Model of `sum(breakdown[provider][*].tokens)` over one provider's model map. -/
def innerTokens (inner : List (String × BreakdownLeaf)) : ℚ :=
  (inner.map (fun kv => kv.2.tokens)).sum

/-- Model of `sum(breakdown[provider][*].requests)` over one provider's model map. -/
def innerRequests (inner : List (String × BreakdownLeaf)) : ℕ :=
  (inner.map (fun kv => kv.2.requests)).sum

/-- Model of `sum(breakdown[*][*].cost)`. -/
def breakdownCostSum (b : Breakdown) : ℚ := (b.map (fun kv => innerCost kv.2)).sum

/-- Model of `sum(breakdown[*][*].tokens)`. -/
def breakdownTokensSum (b : Breakdown) : ℚ := (b.map (fun kv => innerTokens kv.2)).sum

/-- Model of `sum(breakdown[*][*].requests)`. -/
def breakdownRequestsSum (b : Breakdown) : ℕ := (b.map (fun kv => innerRequests kv.2)).sum

/-- The conservation invariant of a single aggregate. -/
def Conserved (a : UsageAggregate) : Prop :=
  breakdownCostSum a.breakdown = a.totalCost ∧
  breakdownTokensSum a.breakdown = a.totalTokens ∧
  breakdownRequestsSum a.breakdown = a.requestCount

theorem conserved_emptyAggregate (k : String) : Conserved (UsageTracker.emptyAggregate k) := by
  refine ⟨rfl, rfl, rfl⟩

/-- The per-record leaf update of `aggregateRecords` (lines 303–306). -/
def bumpLeaf (r : UsageRecord) (leaf : BreakdownLeaf) : BreakdownLeaf :=
  { cost := leaf.cost + r.cost
    tokens := leaf.tokens + r.usage.total
    requests := leaf.requests + 1 }

theorem innerCost_bump (v : List (String × BreakdownLeaf)) (r : UsageRecord) :
    innerCost (updA v r.model { cost := 0, tokens := 0, requests := 0 } (bumpLeaf r)) =
      innerCost v + r.cost :=
  updA_map_sum (fun leaf : BreakdownLeaf => leaf.cost) r.cost v r.model _ _
    (fun _ => rfl) rfl

theorem innerTokens_bump (v : List (String × BreakdownLeaf)) (r : UsageRecord) :
    innerTokens (updA v r.model { cost := 0, tokens := 0, requests := 0 } (bumpLeaf r)) =
      innerTokens v + r.usage.total :=
  updA_map_sum (fun leaf : BreakdownLeaf => leaf.tokens) r.usage.total v r.model _ _
    (fun _ => rfl) rfl

theorem innerRequests_bump (v : List (String × BreakdownLeaf)) (r : UsageRecord) :
    innerRequests (updA v r.model { cost := 0, tokens := 0, requests := 0 } (bumpLeaf r)) =
      innerRequests v + 1 :=
  updA_map_sum (fun leaf : BreakdownLeaf => leaf.requests) 1 v r.model _ _
    (fun _ => rfl) rfl

theorem breakdownCostSum_applyRecord (a : UsageAggregate) (r : UsageRecord) :
    breakdownCostSum (UsageTracker.applyRecord a r).breakdown =
      breakdownCostSum a.breakdown + r.cost :=
  updA_map_sum innerCost r.cost a.breakdown r.provider [] _
    (fun v => innerCost_bump v r) rfl

theorem breakdownTokensSum_applyRecord (a : UsageAggregate) (r : UsageRecord) :
    breakdownTokensSum (UsageTracker.applyRecord a r).breakdown =
      breakdownTokensSum a.breakdown + r.usage.total :=
  updA_map_sum innerTokens r.usage.total a.breakdown r.provider [] _
    (fun v => innerTokens_bump v r) rfl

theorem breakdownRequestsSum_applyRecord (a : UsageAggregate) (r : UsageRecord) :
    breakdownRequestsSum (UsageTracker.applyRecord a r).breakdown =
      breakdownRequestsSum a.breakdown + 1 :=
  updA_map_sum innerRequests 1 a.breakdown r.provider [] _
    (fun v => innerRequests_bump v r) rfl

theorem conserved_applyRecord {a : UsageAggregate} (r : UsageRecord) (h : Conserved a) :
    Conserved (UsageTracker.applyRecord a r) := by
  obtain ⟨hc, ht, hq⟩ := h
  refine ⟨?_, ?_, ?_⟩
  · rw [breakdownCostSum_applyRecord, hc]
    rfl
  · rw [breakdownTokensSum_applyRecord, ht]
    rfl
  · rw [breakdownRequestsSum_applyRecord, hq]
    rfl

theorem conserved_aggregateStep (keyFn : Int → Period → String) (period : Period)
    {aggs : List (String × UsageAggregate)} (r : UsageRecord)
    (hall : ∀ kv ∈ aggs, Conserved kv.2) :
    ∀ kv ∈ UsageTracker.aggregateStep keyFn period aggs r, Conserved kv.2 := by
  unfold UsageTracker.aggregateStep
  exact mem_updA hall
    (conserved_applyRecord r (conserved_emptyAggregate _))
    (fun kv hkv => conserved_applyRecord r (hall kv hkv))

theorem conserved_foldl (keyFn : Int → Period → String) (period : Period)
    (records : List UsageRecord) (aggs : List (String × UsageAggregate))
    (hall : ∀ kv ∈ aggs, Conserved kv.2) :
    ∀ kv ∈ records.foldl (UsageTracker.aggregateStep keyFn period) aggs, Conserved kv.2 := by
  induction records generalizing aggs with
  | nil => exact hall
  | cons r t ih =>
    exact ih _ (conserved_aggregateStep keyFn period r hall)

/-- C3: aggregate conservation.  Every period bucket produced by
`aggregateRecords` — for any record list, any granularity, and any
bucket-key function — satisfies `sum(breakdown[*][*].cost) = totalCost`,
`sum(breakdown[*][*].tokens) = totalTokens` and
`sum(breakdown[*][*].requests) = requestCount`, exactly. -/
theorem c3_aggregate_conservation (keyFn : Int → Period → String)
    (records : List UsageRecord) (period : Period) (agg : UsageAggregate)
    (h : agg ∈ UsageTracker.aggregateRecords keyFn records period) :
    breakdownCostSum agg.breakdown = agg.totalCost ∧
    breakdownTokensSum agg.breakdown = agg.totalTokens ∧
    breakdownRequestsSum agg.breakdown = agg.requestCount := by
  simp only [UsageTracker.aggregateRecords] at h
  have h1 := mem_of_insertionSort h
  rcases List.mem_map.mp h1 with ⟨kv2, hkv2, hagg⟩
  rcases List.mem_map.mp hkv2 with ⟨kv, hkv, hkv2eq⟩
  have hc : Conserved kv.2 :=
    conserved_foldl keyFn period records [] (by simp) kv hkv
  subst hagg
  rw [← hkv2eq]
  exact ⟨hc.1, hc.2.1, hc.2.2⟩

/-- Constant bucket-key function for the C3 witness (all records fall in one
day bucket). -/
def kfW : Int → Period → String := fun _ _ => "2024-01-01"

/-- The spec's end-to-end aggregation scenario: three records for provider
`"p"`, models `"a"`, `"b"`, `"a"`, with costs 1.00, 2.50, 0.75. -/
def r3W : List UsageRecord :=
  [{ id := "1", agentId := "ag", sessionId := "s", provider := "p", model := "a",
     usage := { input := 0, output := 0, cacheRead := 0, cacheWrite := 0, total := 10 },
     cost := 1, timestamp := 0 },
   { id := "2", agentId := "ag", sessionId := "s", provider := "p", model := "b",
     usage := { input := 0, output := 0, cacheRead := 0, cacheWrite := 0, total := 20 },
     cost := 5/2, timestamp := 0 },
   { id := "3", agentId := "ag", sessionId := "s", provider := "p", model := "a",
     usage := { input := 0, output := 0, cacheRead := 0, cacheWrite := 0, total := 30 },
     cost := 3/4, timestamp := 0 }]

/-- The single aggregate bucket the scenario produces. -/
def aggW : UsageAggregate :=
  { period := "2024-01-01", totalCost := 17/4, totalTokens := 60, requestCount := 3,
    averageCostPerRequest := 17/12,
    breakdown :=
      [("p", [("a", { cost := 7/4, tokens := 40, requests := 2 }),
              ("b", { cost := 5/2, tokens := 20, requests := 1 })])] }

/-- C3 witness: the conservation theorem applied to the scenario's one
bucket (total cost 4.25 over 3 requests, leaf `p/a` at 1.75 over 2). -/
theorem c3_aggregate_conservation_witness :
    aggW ∈ UsageTracker.aggregateRecords kfW r3W Period.day ∧
    (breakdownCostSum aggW.breakdown = aggW.totalCost ∧
      breakdownTokensSum aggW.breakdown = aggW.totalTokens ∧
      breakdownRequestsSum aggW.breakdown = aggW.requestCount) := by
  have hl : UsageTracker.aggregateRecords kfW r3W Period.day = [aggW] := by
    norm_num +decide [UsageTracker.aggregateRecords, UsageTracker.aggregateStep,
      UsageTracker.applyRecord, UsageTracker.emptyAggregate, updA, r3W, kfW, aggW,
      List.insertionSort, List.orderedInsert]
  have hmem : aggW ∈ UsageTracker.aggregateRecords kfW r3W Period.day := by
    rw [hl]
    simp
  exact ⟨hmem, c3_aggregate_conservation kfW r3W Period.day aggW hmem⟩

/-! ## Selector lemmas -/

namespace CostOptimizedModelSelector

theorem findInProviders_some {provs : List (String × ProviderConfig)} {modelId : String}
    {m : ModelRef} (h : findInProviders provs modelId = some m) :
    m.model = modelId ∧
      ∃ pc, (m.provider, pc) ∈ provs ∧ ∃ e ∈ pc.models, e.id = modelId := by
  induction provs with
  | nil => simp [findInProviders] at h
  | cons p t ih =>
    obtain ⟨prov, pc⟩ := p
    by_cases hf : ((pc.models.find? (fun e => e.id == modelId)).isSome)
    · rw [findInProviders, if_pos hf] at h
      rcases Option.isSome_iff_exists.mp hf with ⟨e, he⟩
      have hmem := List.mem_of_find?_eq_some he
      have hid : e.id = modelId := by simpa using List.find?_some he
      cases h
      exact ⟨rfl, pc, by simp, e, hmem, hid⟩
    · rw [findInProviders, if_neg hf] at h
      rcases ih h with ⟨h1, pc', hpc', he'⟩
      exact ⟨h1, pc', by simp [hpc'], he'⟩

theorem mem_getAvailableModelsAux {config : OpenClawConfig}
    {criteria : ModelSelectionCriteria} {l : List (String × ModelPerformanceProfile)}
    {m : ModelRef} (h : m ∈ getAvailableModelsAux config criteria l) :
    ∃ pr ∈ l, passesFilters criteria pr.2 = true ∧
      findModelInConfig config pr.1 = some m := by
  induction l with
  | nil => simp [getAvailableModelsAux] at h
  | cons pr t ih =>
    obtain ⟨modelId, profile⟩ := pr
    by_cases hp : passesFilters criteria profile
    · cases hfc : findModelInConfig config modelId with
      | some ref =>
        rw [getAvailableModelsAux, if_pos hp, hfc] at h
        rcases List.mem_cons.mp h with h | h
        · exact ⟨(modelId, profile), by simp, hp, by rw [hfc, h]⟩
        · rcases ih h with ⟨pr', hpr', hrest⟩
          exact ⟨pr', by simp [hpr'], hrest⟩
      | none =>
        rw [getAvailableModelsAux, if_pos hp, hfc] at h
        rcases ih h with ⟨pr', hpr', hrest⟩
        exact ⟨pr', by simp [hpr'], hrest⟩
    · rw [getAvailableModelsAux, if_neg hp] at h
      rcases ih h with ⟨pr', hpr', hrest⟩
      exact ⟨pr', by simp [hpr'], hrest⟩

theorem getAvailableModelsAux_eq_nil {config : OpenClawConfig}
    {criteria : ModelSelectionCriteria} {l : List (String × ModelPerformanceProfile)}
    (h : ∀ pr ∈ l, findModelInConfig config pr.1 = none) :
    getAvailableModelsAux config criteria l = [] := by
  induction l with
  | nil => rfl
  | cons pr t ih =>
    obtain ⟨modelId, profile⟩ := pr
    have htail := ih (fun pr' hpr' => h pr' (by simp [hpr']))
    by_cases hp : passesFilters criteria profile
    · rw [getAvailableModelsAux, if_pos hp, h (modelId, profile) (by simp)]
      exact htail
    · rw [getAvailableModelsAux, if_neg hp]
      exact htail

theorem mem_getAvailableModels_isSome {config : OpenClawConfig}
    {criteria : ModelSelectionCriteria} {m : ModelRef}
    (h : m ∈ getAvailableModels config criteria) :
    (lookupA modelProfiles m.model).isSome := by
  rcases mem_getAvailableModelsAux h with ⟨pr, hpr, _, hfc⟩
  have hid : m.model = pr.1 := (findInProviders_some hfc).1
  rw [hid]
  exact lookupA_isSome_of_mem (l := modelProfiles) (by simpa using hpr)

theorem mem_scoreModels {models : List ModelRef} {criteria : ModelSelectionCriteria}
    {s : ScoredModel} (h : s ∈ scoreModels models criteria) : s.model ∈ models := by
  induction models with
  | nil => simp [scoreModels] at h
  | cons m t ih =>
    cases hl : lookupA modelProfiles m.model with
    | none =>
      rw [scoreModels, hl] at h
      exact List.mem_cons_of_mem _ (ih h)
    | some profile =>
      rw [scoreModels, hl] at h
      rcases List.mem_cons.mp h with h | h
      · rw [h]
        simp
      · exact List.mem_cons_of_mem _ (ih h)

theorem scoreModels_coverage {models : List ModelRef} {criteria : ModelSelectionCriteria}
    {m : ModelRef} (hm : m ∈ models) (hp : (lookupA modelProfiles m.model).isSome) :
    ∃ s ∈ scoreModels models criteria, s.model = m := by
  induction models with
  | nil => simp at hm
  | cons m' t ih =>
    rcases List.mem_cons.mp hm with hm | hm
    · subst hm
      rcases Option.isSome_iff_exists.mp hp with ⟨profile, hl⟩
      refine ⟨⟨m, profile.performance.quality * getQualityWeight criteria +
          profile.performance.speed * getSpeedWeight criteria +
          calculateCostScore profile.cost * getCostWeight criteria +
          (if criteria.requiresReasoning then profile.performance.reasoning * 2 else 0)⟩,
        ?_, rfl⟩
      rw [scoreModels, hl]
      exact List.mem_cons_self _ _
    · rcases ih hm with ⟨s, hs, hsm⟩
      refine ⟨s, ?_, hsm⟩
      cases hl : lookupA modelProfiles m'.model with
      | none => rw [scoreModels, hl]; exact hs
      | some profile => rw [scoreModels, hl]; exact List.mem_cons_of_mem _ hs

theorem applyBudgetConstraints_mem {sorted : List ScoredModel}
    {criteria : ModelSelectionCriteria} {m : ModelRef}
    (h : applyBudgetConstraints sorted criteria = some m) :
    ∃ s ∈ sorted, s.model = m := by
  unfold applyBudgetConstraints at h
  by_cases hb : jsTruthy criteria.budgetRemaining
  · rw [if_neg (by simp [hb])] at h
    by_cases haf : (sorted.filter
        (fun s =>
          match lookupA modelProfiles s.model.model with
          | none => false
          | some _ =>
            decide (getModelCostEstimate s.model.model 1000 500 ≤
              criteria.budgetRemaining.getD 0))).length = 0
    · rw [if_pos haf] at h
      rcases Option.map_eq_some'.mp h with ⟨s, hs, hsm⟩
      refine ⟨s, ?_, hsm⟩
      exact mem_of_insertionSort (mem_of_head? hs)
    · rw [if_neg haf] at h
      rcases Option.map_eq_some'.mp h with ⟨s, hs, hsm⟩
      exact ⟨s, (List.mem_filter.mp (mem_of_head? hs)).1, hsm⟩
  · rw [if_pos (by simp [hb])] at h
    rcases Option.map_eq_some'.mp h with ⟨s, hs, hsm⟩
    exact ⟨s, mem_of_head? hs, hsm⟩

theorem selectOptimalModel_ok_mem {config : OpenClawConfig}
    {criteria : ModelSelectionCriteria} {m : ModelRef}
    (h : selectOptimalModel config criteria = .ok m) :
    m ∈ getAvailableModels config criteria := by
  unfold selectOptimalModel at h
  by_cases hlen : (List.insertionSort scoreGe
      (scoreModels (getAvailableModels config criteria) criteria)).length = 0
  · rw [if_pos hlen] at h
    exact absurd h (by simp)
  · rw [if_neg hlen] at h
    cases happ : applyBudgetConstraints
        (List.insertionSort scoreGe
          (scoreModels (getAvailableModels config criteria) criteria)) criteria with
    | none => rw [happ] at h; exact absurd h (by simp)
    | some m' =>
      rw [happ] at h
      have hmm : m' = m := by simpa using h
      subst hmm
      rcases applyBudgetConstraints_mem happ with ⟨s, hs, hsm⟩
      rw [← hsm]
      exact mem_scoreModels (mem_of_insertionSort hs)

/-- A model reference declared by the configuration's provider model lists:
some provider entry carries a model entry with this id. -/
def declaredInConfig (config : OpenClawConfig) (m : ModelRef) : Prop :=
  ∃ pc, (m.provider, pc) ∈ (config.models.bind (·.providers)).getD [] ∧
    ∃ e ∈ pc.models, e.id = m.model

/-- C6: reasoning capability filtering is strict.  With
`requiresReasoning = true`, every model `selectOptimalModel` can return has a
registry profile with `capabilities.reasoning = true` (so no
`reasoning = false` model is ever returned), and when capability filtering
leaves no candidate the call fails with the explicit
"No suitable models found for the given criteria" error — no silent
fallback. -/
theorem c6_reasoning_filter (config : OpenClawConfig) (criteria : ModelSelectionCriteria)
    (hr : criteria.requiresReasoning = true) :
    (∀ m, selectOptimalModel config criteria = .ok m →
        ∃ p, lookupA modelProfiles m.model = some p ∧ p.capabilities.reasoning = true) ∧
    (getAvailableModels config criteria = [] →
        selectOptimalModel config criteria =
          .error "No suitable models found for the given criteria") := by
  constructor
  · intro m hm
    have hmem := selectOptimalModel_ok_mem hm
    rcases mem_getAvailableModelsAux hmem with ⟨pr, hpr, hpass, hfc⟩
    have hid : m.model = pr.1 := (findInProviders_some hfc).1
    have hnd : (modelProfiles.map (·.1)).Nodup := by decide
    refine ⟨pr.2, ?_, ?_⟩
    · rw [hid]
      exact lookupA_eq_of_mem_nodup (by simpa using hpr) hnd
    · by_contra hneg
      have hfalse : pr.2.capabilities.reasoning = false := by
        simpa using hneg
      rw [passesFilters, hr, hfalse] at hpass
      simp at hpass
  · intro hempty
    unfold selectOptimalModel
    rw [hempty]
    simp [scoreModels]

/-- C10: the selector only ever returns models lying in the intersection of
the hardcoded registry and the configuration's provider model lists; when
the configuration declares none of the registry's model ids (in particular,
when it declares no providers at all), every call fails with the
"No suitable models found for the given criteria" error even though
capability-satisfying registry models exist. -/
theorem c10_config_intersection (config : OpenClawConfig)
    (criteria : ModelSelectionCriteria) :
    (∀ m, selectOptimalModel config criteria = .ok m →
        (lookupA modelProfiles m.model).isSome ∧ declaredInConfig config m) ∧
    ((∀ pr ∈ modelProfiles, findModelInConfig config pr.1 = none) →
        selectOptimalModel config criteria =
          .error "No suitable models found for the given criteria") := by
  constructor
  · intro m hm
    have hmem := selectOptimalModel_ok_mem hm
    refine ⟨mem_getAvailableModels_isSome hmem, ?_⟩
    rcases mem_getAvailableModelsAux hmem with ⟨pr, hpr, _, hfc⟩
    rcases findInProviders_some hfc with ⟨hid, pc, hpc, e, he, heid⟩
    exact ⟨pc, hpc, e, he, heid.trans hid.symm⟩
  · intro hnone
    have hempty : getAvailableModels config criteria = [] :=
      getAvailableModelsAux_eq_nil hnone
    unfold selectOptimalModel
    rw [hempty]
    simp [scoreModels]

/-- C5 (amended): with a *truthy* `budgetRemaining` (present and nonzero)
strictly below every capability-eligible candidate's reference-request
estimate (1000 input + 500 output tokens), the selector still returns a
model — it never throws for that reason — and the returned model has the
minimum raw `(inputPrice + outputPrice)` sum among all capability-eligible
candidates. -/
theorem c5_budget_fallback_cheapest (config : OpenClawConfig)
    (criteria : ModelSelectionCriteria) (b : ℚ)
    (hbr : criteria.budgetRemaining = some b) (hb0 : b ≠ 0)
    (hne : getAvailableModels config criteria ≠ [])
    (hbelow : ∀ m ∈ getAvailableModels config criteria,
        b < getModelCostEstimate m.model 1000 500) :
    ∃ m, selectOptimalModel config criteria = .ok m ∧
      m ∈ getAvailableModels config criteria ∧
      ∀ m' ∈ getAvailableModels config criteria,
        priceSum m.model ≤ priceSum m'.model := by
  have hcover : ∀ m ∈ getAvailableModels config criteria,
      ∃ s ∈ scoreModels (getAvailableModels config criteria) criteria, s.model = m :=
    fun m hm => scoreModels_coverage hm (mem_getAvailableModels_isSome hm)
  have hscne : scoreModels (getAvailableModels config criteria) criteria ≠ [] := by
    cases ha : getAvailableModels config criteria with
    | nil => exact absurd ha hne
    | cons a t =>
      rcases hcover a (by rw [ha]; exact List.mem_cons_self a t) with ⟨s, hs, _⟩
      intro hc
      rw [ha, hc] at hs
      simp at hs
  have hsortedne :
      List.insertionSort scoreGe
        (scoreModels (getAvailableModels config criteria) criteria) ≠ [] := by
    intro hc
    exact hscne ((hc ▸ List.perm_insertionSort scoreGe
      (scoreModels (getAvailableModels config criteria) criteria)).symm.eq_nil)
  have hlen0 :
      ¬ (List.insertionSort scoreGe
        (scoreModels (getAvailableModels config criteria) criteria)).length = 0 :=
    fun hc => hsortedne (List.length_eq_zero.mp hc)
  have hT : jsTruthy criteria.budgetRemaining = true := by
    rw [hbr]
    simp [jsTruthy, hb0]
  have haff :
      (List.insertionSort scoreGe
          (scoreModels (getAvailableModels config criteria) criteria)).filter
        (fun s =>
          match lookupA modelProfiles s.model.model with
          | none => false
          | some _ =>
            decide (getModelCostEstimate s.model.model 1000 500 ≤
              criteria.budgetRemaining.getD 0)) = [] := by
    apply List.filter_eq_nil_iff.mpr
    intro s hs
    have hmem : s.model ∈ getAvailableModels config criteria :=
      mem_scoreModels (mem_of_insertionSort hs)
    rcases Option.isSome_iff_exists.mp (mem_getAvailableModels_isSome hmem) with ⟨p, hp⟩
    rw [hp]
    have := hbelow s.model hmem
    simp [hbr, not_le.mpr this]
  cases hps : List.insertionSort priceLe
      (List.insertionSort scoreGe
        (scoreModels (getAvailableModels config criteria) criteria)) with
  | nil =>
    exact absurd ((hps ▸ List.perm_insertionSort priceLe
      (List.insertionSort scoreGe
        (scoreModels (getAvailableModels config criteria) criteria))).symm.eq_nil) hsortedne
  | cons s0 tail =>
    have happ : applyBudgetConstraints
        (List.insertionSort scoreGe
          (scoreModels (getAvailableModels config criteria) criteria)) criteria =
        some s0.model := by
      unfold applyBudgetConstraints
      rw [if_neg (by simp [hT]), if_pos (by rw [haff]; rfl), hps]
      rfl
    have hok : selectOptimalModel config criteria = .ok s0.model := by
      unfold selectOptimalModel
      rw [if_neg hlen0, happ]
    refine ⟨s0.model, hok, ?_, ?_⟩
    · have hs0 : s0 ∈ List.insertionSort priceLe
          (List.insertionSort scoreGe
            (scoreModels (getAvailableModels config criteria) criteria)) := by
        rw [hps]
        exact List.mem_cons_self s0 tail
      exact mem_scoreModels (mem_of_insertionSort (mem_of_insertionSort hs0))
    · intro m' hm'
      rcases hcover m' hm' with ⟨s', hs', hs'm⟩
      have hs'p : s' ∈ List.insertionSort priceLe
          (List.insertionSort scoreGe
            (scoreModels (getAvailableModels config criteria) criteria)) :=
        mem_insertionSort_of_mem (mem_insertionSort_of_mem hs')
      rw [hps] at hs'p
      have hSorted : List.Sorted priceLe (s0 :: tail) :=
        hps ▸ List.sorted_insertionSort priceLe
          (List.insertionSort scoreGe
            (scoreModels (getAvailableModels config criteria) criteria))
      rcases List.mem_cons.mp hs'p with h | h
      · rw [← hs'm, h]
      · have hrel := List.rel_of_sorted_cons hSorted s' h
        rw [← hs'm]
        exact hrel

/-- The full six-model provider configuration used by the concrete selector
theorems. -/
def configAll : OpenClawConfig :=
  { models := some
      { providers := some
          [("anthropic",
            { models := [⟨"claude-3-5-sonnet-20241022"⟩, ⟨"claude-3-5-haiku-20241022"⟩] }),
           ("openai",
            { models := [⟨"gpt-4o"⟩, ⟨"gpt-4o-mini"⟩, ⟨"gpt-4-turbo"⟩, ⟨"gpt-3.5-turbo"⟩] })]
        costOptimization := none } }

/-- A configuration declaring only the reasoning-incapable Haiku model. -/
def configHaikuOnly : OpenClawConfig :=
  { models := some
      { providers := some [("anthropic", { models := [⟨"claude-3-5-haiku-20241022"⟩] })]
        costOptimization := none } }

/-- A configuration declaring no providers at all. -/
def configNoProviders : OpenClawConfig := { models := none }

/-- Reasoning-task criteria with `requiresReasoning = true`. -/
def critReasonW : ModelSelectionCriteria :=
  { taskType := .reasoning, complexity := .medium, urgency := .medium,
    costSensitivity := .medium, budgetRemaining := none, contextLength := none,
    requiresReasoning := true, requiresMultimodal := false }

/-- Text-task criteria carrying `budgetRemaining: 0` — a value strictly below
every candidate's reference estimate, but falsy in JS. -/
def critC5Zero : ModelSelectionCriteria :=
  { taskType := .text, complexity := .high, urgency := .low, costSensitivity := .low,
    budgetRemaining := some 0, contextLength := none,
    requiresReasoning := false, requiresMultimodal := false }

/-- The same criteria with a truthy budget (0.0001) below every estimate. -/
def critC5Low : ModelSelectionCriteria :=
  { taskType := .text, complexity := .high, urgency := .low, costSensitivity := .low,
    budgetRemaining := some (1/10000), contextLength := none,
    requiresReasoning := false, requiresMultimodal := false }

/-- C5 (counterexample): `budgetRemaining: 0` is strictly below every
capability-eligible candidate's reference estimate, yet — `0` being falsy,
so `applyBudgetConstraints` returns the top-scored model without any budget
filtering — the selector returns `gpt-4o`, although the eligible `gpt-4o-mini`
has a strictly smaller `(inputPrice + outputPrice)` sum.  This falsifies the
claim as stated for the budget value 0. -/
theorem c5_budget_zero_returns_top_scored :
    critC5Zero.budgetRemaining = some 0 ∧
    (∀ m ∈ getAvailableModels configAll critC5Zero,
        0 < getModelCostEstimate m.model 1000 500) ∧
    selectOptimalModel configAll critC5Zero = .ok ⟨"openai", "gpt-4o"⟩ ∧
    (⟨"openai", "gpt-4o-mini"⟩ : ModelRef) ∈ getAvailableModels configAll critC5Zero ∧
    priceSum "gpt-4o-mini" < priceSum "gpt-4o" := by
  refine ⟨rfl, ?_, ?_, ?_, ?_⟩ <;>
    norm_num +decide [selectOptimalModel, getAvailableModels, getAvailableModelsAux,
      passesFilters, capabilityFor, findModelInConfig, findInProviders, scoreModels,
      getQualityWeight, getSpeedWeight, getCostWeight, calculateCostScore,
      getModelCostEstimate, applyBudgetConstraints, priceSum, priceLe, scoreGe,
      List.insertionSort, List.orderedInsert, jsTruthy, lookupA, modelProfiles,
      configAll, critC5Zero]

/-- C5 witness: the amended theorem applied to the six-model configuration
and a truthy 0.0001 budget below every candidate estimate. -/
theorem c5_budget_fallback_cheapest_witness :
    ∃ m, selectOptimalModel configAll critC5Low = .ok m ∧
      m ∈ getAvailableModels configAll critC5Low ∧
      ∀ m' ∈ getAvailableModels configAll critC5Low,
        priceSum m.model ≤ priceSum m'.model := by
  refine c5_budget_fallback_cheapest configAll critC5Low (1/10000) rfl (by norm_num) ?_ ?_ <;>
    norm_num +decide [getAvailableModels, getAvailableModelsAux, passesFilters,
      capabilityFor, findModelInConfig, findInProviders, getModelCostEstimate,
      jsTruthy, lookupA, modelProfiles, configAll, critC5Low]

/-- C6 witness: the filtering theorem applied concretely — `gpt-4o` (the model
returned for a reasoning request against the full configuration) has a
reasoning-capable profile, and with only the reasoning-incapable Haiku
configured the same request fails with the explicit error. -/
theorem c6_reasoning_filter_witness :
    (∃ p, lookupA modelProfiles "gpt-4o" = some p ∧ p.capabilities.reasoning = true) ∧
    selectOptimalModel configHaikuOnly critReasonW =
      .error "No suitable models found for the given criteria" := by
  constructor
  · exact (c6_reasoning_filter configAll critReasonW rfl).1 ⟨"openai", "gpt-4o"⟩
      (by norm_num +decide [selectOptimalModel, getAvailableModels, getAvailableModelsAux,
        passesFilters, capabilityFor, findModelInConfig, findInProviders, scoreModels,
        getQualityWeight, getSpeedWeight, getCostWeight, calculateCostScore,
        applyBudgetConstraints, scoreGe, List.insertionSort, List.orderedInsert,
        jsTruthy, lookupA, modelProfiles, configAll, critReasonW])
  · exact (c6_reasoning_filter configHaikuOnly critReasonW rfl).2
      (by norm_num +decide [getAvailableModels, getAvailableModelsAux, passesFilters,
        capabilityFor, findModelInConfig, findInProviders, lookupA, modelProfiles,
        configHaikuOnly, critReasonW, jsTruthy])

/-- C10 witness: the intersection theorem applied to a configuration with no
providers: the selector fails with the explicit error. -/
theorem c10_config_intersection_witness :
    selectOptimalModel configNoProviders critReasonW =
      .error "No suitable models found for the given criteria" :=
  (c10_config_intersection configNoProviders critReasonW).2 (by decide)

end CostOptimizedModelSelector

end Openclawd
